import Mathlib

/-!
# Verification of `src/util.py` (copd-paper)

A shallow embedding of the queue-parameter estimation, simulation driver and
statistics aggregation code of `src/util.py`, together with theorems settling
the specification claims.

Conventions:
* Timestamps are rationals measured in days (the source parses dates and
  converts differences to days via `total_seconds / 86400`; with exact
  rational arithmetic the two presentations coincide).
* numpy/pandas floating-point results that can be `inf`/`-inf`/`nan` are
  modelled by `NpFloat`, an extended-rational type with numpy's semantics for
  the operations the source uses (`mean` of an empty series is `nan`,
  a positive value divided by zero is `inf`, `nan` propagates).
-/

/-- Extended rationals modelling the numpy float results that the source can
produce: an ordinary value, positive or negative infinity, or `nan`. -/
inductive NpFloat where
  | val (q : ℚ)
  | inf
  | ninf
  | nan
deriving DecidableEq

/-- numpy mean of a series of ordinary values: `nan` on an empty series
(`np.mean([])` warns and returns `nan`), otherwise the exact mean. -/
def npMean (l : List ℚ) : NpFloat :=
  if l.isEmpty then .nan else .val (l.sum / l.length)

/-- numpy multiplication on `NpFloat` (only the `val`/`val` and `nan`
cases are reachable in this development; the rest follow IEEE rules). -/
def npMul : NpFloat → NpFloat → NpFloat
  | .val a, .val b => .val (a * b)
  | .val a, .inf => if 0 < a then .inf else if a < 0 then .ninf else .nan
  | .val a, .ninf => if 0 < a then .ninf else if a < 0 then .inf else .nan
  | .inf, .val b => if 0 < b then .inf else if b < 0 then .ninf else .nan
  | .ninf, .val b => if 0 < b then .ninf else if b < 0 then .inf else .nan
  | .inf, .inf => .inf
  | .inf, .ninf => .ninf
  | .ninf, .inf => .ninf
  | .ninf, .ninf => .inf
  | _, _ => .nan

/-- numpy true division on `NpFloat`: a nonzero value divided by zero is a
signed infinity (with a `RuntimeWarning`, not an exception), `0/0` is `nan`,
`nan` propagates. -/
def npDiv : NpFloat → NpFloat → NpFloat
  | .val a, .val b =>
      if b = 0 then (if a = 0 then .nan else if 0 < a then .inf else .ninf)
      else .val (a / b)
  | .val _, .inf => .val 0
  | .val _, .ninf => .val 0
  | .inf, .val b => if 0 ≤ b then .inf else .ninf
  | .ninf, .val b => if 0 ≤ b then .ninf else .inf
  | _, _ => .nan

/-- One row of a class's historical data: an admission timestamp (in days),
an observed sojourn length `true_los` (in days) and an integer cluster
label. `get_queue_params` only reads the first two columns. -/
structure Rec where
  admission_date : ℚ
  true_los : ℚ
  cluster : ℕ
deriving DecidableEq

/-- The admission timestamps sorted chronologically, as produced by
`data.set_index("admission_date").sort_index().index`. -/
def sortedAdmissions (data : List Rec) : List ℚ :=
  (data.map Rec.admission_date).insertionSort (· ≤ ·)

/-- The consecutive differences of a list headed by `a`:
`pairGaps a [b, c] = [b - a, c - b]`. -/
def pairGaps : ℚ → List ℚ → List ℚ
  | _, [] => []
  | a, b :: t => (b - a) :: pairGaps b t

/-- The inter-arrival gap series produced by
`index.to_series().diff().dt.total_seconds().div(24*60*60, fill_value=0)`:
`diff` leaves `NaT` in the first position, whose `total_seconds` is `nan`,
and `div`'s `fill_value=0` replaces that `nan` by `0` before dividing.
So a sorted series of `n` admissions yields `n` gap values: a leading `0`
followed by the `n - 1` consecutive differences. -/
def gapsDays : List ℚ → List ℚ
  | [] => []
  | a :: t => 0 :: pairGaps a t

/-- The minimum of a list of rationals, `0` on the empty list (pandas
`Series.min()` on an empty column is `nan`, and Python's `max(0, nan)`
evaluates to `0`, so the clamp below lands on `0` either way). -/
def listMin : List ℚ → ℚ
  | [] => 0
  | a :: t => t.foldl min a

/-- The parameter dictionary returned by `get_queue_params`:
`{"arrival": arrival_rate, "service": [service_rate, minimum_length]}`. -/
structure QueueParams where
  arrival : NpFloat
  serviceRate : NpFloat
  minimumShift : ℚ
deriving DecidableEq

/-- Embedding of `get_queue_params(data, prop=1, sigma=1)`. -/
def get_queue_params (data : List Rec) (prop : ℚ := 1) (sigma : ℚ := 1) :
    QueueParams :=
  let interarrival_times := gapsDays (sortedAdmissions data)
  let arrival_rate := npDiv (.val sigma) (npMean interarrival_times)
  let minimum_length := max 0 (listMin (data.map Rec.true_los))
  let shifted_lengths := (data.map Rec.true_los).map (· - minimum_length)
  let mean_shifted_length := npMean shifted_lengths
  let service_rate := npDiv (.val 1) (npMul mean_shifted_length (.val prop))
  ⟨arrival_rate, service_rate, minimum_length⟩

/-- The worked example of the spec: admissions at days 0, 2, 4 with
sojourns 1, 3, 5 (one cluster). -/
def exampleData : List Rec :=
  [⟨0, 1, 0⟩, ⟨2, 3, 0⟩, ⟨4, 5, 0⟩]

/-- Record of a completed customer, following the fields of `ciw.DataRecord`
that the aggregation code reads (`arrival_date`, `exit_date`) plus the class
and server identity it carries. -/
structure Record where
  customer_class : ℕ
  arrival_date : ℚ
  exit_date : ℚ
  server_id : ℕ
deriving DecidableEq

/-- Embedding of `get_system_times(queue, max_time)`: keep the records whose
`arrival_date` lies strictly inside `(0.25 * max_time, 0.75 * max_time)` and
report `exit_date - arrival_date` for each, in record order. -/
def get_system_times (records : List Record) (max_time : ℚ) : List ℚ :=
  (records.filter fun r =>
      decide (max_time * (1/4) < r.arrival_date) &&
        decide (r.arrival_date < max_time * (3/4))).map
    fun r => r.exit_date - r.arrival_date

/-- A ciw server as read by `get_utilisations`: its cumulative busy time and
its total observed time (ciw sets `total_time` to the full span of the run
from the global start once the simulation ends). -/
structure Server where
  busy_time : ℚ
  total_time : ℚ
deriving DecidableEq

/-- Embedding of `get_utilisations(queue)`: one utilisation value
`busy_time / total_time` per server of the (single) node, in server order. -/
def get_utilisations (servers : List Server) : List ℚ :=
  servers.map fun s => s.busy_time / s.total_time

/-- Embedding of the `ShiftedExponential(Distribution)` class: its
`__init__` stores `rate` and `shift` exactly as given, with no validation,
clamping or call to the base class. -/
structure ShiftedExponential where
  rate : ℚ
  shift : ℚ
deriving DecidableEq

/-- `ShiftedExponential.__init__(self, rate, shift)`: `self.rate = rate;
self.shift = shift` and nothing else (no check, no exception). -/
def ShiftedExponential.init (rate shift : ℚ) : ShiftedExponential :=
  ⟨rate, shift⟩

/-- `ShiftedExponential.sample(self)` returns
`self.shift + expovariate(self.rate)`; the second argument is the
`expovariate(self.rate)` draw produced by the underlying random source. -/
def ShiftedExponential.sample (d : ShiftedExponential) (draw : ℚ) : ℚ :=
  d.shift + draw


/-! ## The simulation driver `simulate_queue`

`simulate_queue` seeds ciw's global pseudo-random source, estimates one
parameter set per cluster label (`zip(range(n_clusters), props)`), builds a
single-node multi-class network and runs ciw's event-driven simulation up to
`max_time`.  The estimation loop and the seeding are repository code and are
embedded directly; the event engine and the random source live inside the
`ciw` library and are modelled from the spec (§4.2, §4.3, §4.5). -/

/-- `data["cluster"].nunique()`: the number of distinct cluster labels. -/
def nClusters (data : List Rec) : ℕ :=
  ((data.map Rec.cluster).dedup).length

/-- The estimation loop of `simulate_queue`:
`for label, prop in zip(range(n_clusters), props):
   all_queue_params[label] = get_queue_params(data[data.cluster == label], prop, sigma)`.
`zip` truncates to the shorter of its arguments, so only labels
`0 .. min n_clusters (len props) - 1` receive an entry. -/
def buildAllQueueParams (data : List Rec) (props : List ℚ) (sigma : ℚ) :
    List (ℕ × QueueParams) :=
  ((List.range (nClusters data)).zip props).map fun lp =>
    (lp.1, get_queue_params (data.filter fun r => r.cluster = lp.1) lp.2 sigma)

/-- Modelled from the spec: ciw's seedable pseudo-random source (§4.2).  The
state is a natural number; `ciw.seed(seed)` resets the global state to a
function of `seed` alone, discarding whatever state was there before. -/
def ciwSeed (seed : ℕ) : ℕ :=
  seed % 2147483648

/-- Modelled from the spec: one step of the pseudo-random source (a linear
congruential generator standing in for ciw's Mersenne twister; only
determinism matters for the claims, not the distribution). -/
def rngNext (g : ℕ) : ℕ :=
  (1103515245 * g + 12345) % 2147483648

/-- Modelled from the spec: a uniform variate in `(0, 1)` read off the
current generator state. -/
def rngUnit (g : ℕ) : ℚ :=
  ((g % 1000 : ℕ) + 1 : ℚ) / 1002

/-- Modelled from the spec: a draw from `Exponential(rate)` (§4.2), a
non-negative variate obtained deterministically from the generator state by
an inverse-CDF-style transform (`u / (1 - u) / rate` standing in for
`-log(1 - u) / rate`, which is not rational); returns the draw and the
advanced state. -/
def expSample (rate : ℚ) (g : ℕ) : ℚ × ℕ :=
  let g' := rngNext g
  let u := rngUnit g'
  (u / ((1 - u) * rate), g')

/-- A draw from `ShiftedExponential(rate, shift)`: `shift + expovariate(rate)`
with the generator state threaded through. -/
def shiftedExpSample (rate shift : ℚ) (g : ℕ) : ℚ × ℕ :=
  let e := expSample rate g
  (ShiftedExponential.sample ⟨rate, shift⟩ e.1, e.2)

/-- A customer in flight: its class and the simulated time it arrived. -/
structure Customer where
  cls : ℕ
  arrivalTime : ℚ
deriving DecidableEq

/-- Modelled from the spec: a pending event (§3) — an arrival of a class or
a service completion of a customer on a server. -/
inductive EventKind where
  | arrival (cls : ℕ)
  | completion (server : ℕ) (cust : Customer)
deriving DecidableEq

/-- Modelled from the spec: an event carries its scheduled absolute time and
an insertion sequence number used to break ties deterministically (§3). -/
structure Event where
  time : ℚ
  seq : ℕ
  kind : EventKind
deriving DecidableEq

/-- Modelled from the spec: the whole engine state (§4.5) — current clock,
the time-ordered event list, the insertion counter, the busy flags of the
server pool, the FCFS waiting queue, the emitted records and the
pseudo-random state. -/
structure EngineState where
  now : ℚ
  events : List Event
  seq : ℕ
  servers : List Bool
  queue : List Customer
  records : List Record
  rng : ℕ
deriving DecidableEq

/-- Modelled from the spec: insertion into the time-ordered event list,
ties broken by insertion sequence (§4.3). -/
def insertEvent (e : Event) : List Event → List Event
  | [] => [e]
  | x :: xs =>
      if e.time < x.time ∨ (e.time = x.time ∧ e.seq < x.seq) then
        e :: x :: xs
      else
        x :: insertEvent e xs

/-- Schedule a new event at time `t`, stamping it with the next insertion
sequence number. -/
def scheduleEvent (st : EngineState) (t : ℚ) (k : EventKind) : EngineState :=
  { st with
      events := insertEvent ⟨t, st.seq, k⟩ st.events
      seq := st.seq + 1 }

/-- Index of the first idle server, if any (`Server Pool.acquire`, §4.4). -/
def findIdle (servers : List Bool) : Option ℕ :=
  servers.findIdx? fun b => !b

/-- Put customer `cust` into service on server `i` at time `t`: mark the
server busy, draw its service duration from its class's shifted exponential
and schedule the completion (§4.5). -/
def startService (srvParams : List (ℚ × ℚ)) (st : EngineState) (i : ℕ)
    (cust : Customer) (t : ℚ) : EngineState :=
  let ps := srvParams.getD cust.cls (1, 0)
  let d := shiftedExpSample ps.1 ps.2 st.rng
  scheduleEvent
    { st with servers := st.servers.set i true, rng := d.2 }
    (t + d.1) (.completion i cust)

/-- Modelled from the spec: the main event loop (§4.5), fuelled to make the
recursion structural.  Pop the earliest event; stop if its time exceeds the
horizon; otherwise process an arrival (create the customer, reschedule the
class's next arrival, acquire a server or join the queue) or a completion
(release the server, emit the record, and atomically reassign the freed
server to the longest-waiting customer if any). -/
def runEngine (arrRates : List ℚ) (srvParams : List (ℚ × ℚ)) (maxTime : ℚ) :
    ℕ → EngineState → EngineState
  | 0, st => st
  | fuel + 1, st =>
    match st.events with
    | [] => st
    | e :: rest =>
      if maxTime < e.time then st
      else
        let st1 := { st with events := rest, now := e.time }
        match e.kind with
        | .arrival cls =>
            let cust : Customer := ⟨cls, e.time⟩
            let d := expSample (arrRates.getD cls 1) st1.rng
            let st2 := scheduleEvent { st1 with rng := d.2 } (e.time + d.1)
              (.arrival cls)
            let st3 :=
              match findIdle st2.servers with
              | some i => startService srvParams st2 i cust e.time
              | none => { st2 with queue := st2.queue ++ [cust] }
            runEngine arrRates srvParams maxTime fuel st3
        | .completion i cust =>
            let st2 := { st1 with
                servers := st1.servers.set i false
                records := st1.records ++
                  [(⟨cust.cls, cust.arrivalTime, e.time, i⟩ : Record)] }
            let st3 :=
              match st2.queue with
              | [] => st2
              | c :: qrest =>
                  startService srvParams { st2 with queue := qrest } i c e.time
            runEngine arrRates srvParams maxTime fuel st3

/-- Modelled from the spec: initial condition (§4.5) — clock 0, all servers
idle, one arrival event pre-scheduled per class from its exponential. -/
def initState (g : ℕ) (numServers : ℕ) (arrRates : List ℚ) : EngineState :=
  (List.range arrRates.length).foldl
    (fun st cls =>
      let d := expSample (arrRates.getD cls 1) st.rng
      scheduleEvent { st with rng := d.2 } d.1 (.arrival cls))
    (⟨0, [], 0, List.replicate numServers false, [], [], g⟩ : EngineState)

/-- Fuel bound for the fuelled event loop (a modelling artifact: any fixed
bound; runs that would exceed it simply stop early, deterministically). -/
def simFuel : ℕ := 1000000

/-- Read an ordinary rational out of an `NpFloat` parameter (the network
construction hands the estimated rates to the distribution constructors;
non-finite rates are represented by `0` here — only the `val` case arises
for data rich enough to simulate). -/
def NpFloat.toRat : NpFloat → ℚ
  | .val q => q
  | _ => 0

/-- Embedding of `simulate_queue(data, props, num_servers, seed, max_time,
sigma)` returning the sequence of completed-customer records.
`globalRngState` is the ambient state of ciw's global random source before
the call; the first statement of the body, `ciw.seed(seed)`, overwrites it,
which is why it is never read. -/
def simulate_queue (_globalRngState : ℕ) (data : List Rec) (props : List ℚ)
    (num_servers : ℕ) (seed : ℕ) (max_time : ℚ) (sigma : ℚ := 1) :
    List Record :=
  let g0 := ciwSeed seed
  let params := buildAllQueueParams data props sigma
  let arrRates := params.map fun p => p.2.arrival.toRat
  let srvParams := params.map fun p => (p.2.serviceRate.toRat, p.2.minimumShift)
  (runEngine arrRates srvParams max_time simFuel
      (initState g0 num_servers arrRates)).records

/-- State-passing rendering of `get_queue_params` for the frame claim: the
call returns its result together with the dataset as the caller sees it
afterwards.  Every pandas operation in the body (`set_index`, `sort_index`,
`diff`, `dt.total_seconds`, `div`, `min`, elementwise `-`, `mean`) returns a
fresh object and none mutates `data` in place, so the dataset handed back is
the input itself. -/
def get_queue_params_withData (data : List Rec) (prop : ℚ := 1)
    (sigma : ℚ := 1) : QueueParams × List Rec :=
  (get_queue_params data prop sigma, data)

/-! ## Helper lemmas (shared) -/

theorem pairGaps_length (a : ℚ) (l : List ℚ) :
    (pairGaps a l).length = l.length := by
  induction l generalizing a with
  | nil => rfl
  | cons b t ih => simp [pairGaps, ih]

theorem pairGaps_sum (a : ℚ) (l : List ℚ) :
    (pairGaps a l).sum = l.getLastD a - a := by
  induction l generalizing a with
  | nil => simp [pairGaps]
  | cons b t ih =>
      simp only [pairGaps, List.sum_cons, ih, List.getLastD_cons]
      ring

theorem zip_map_fst {α β : Type} (l₁ : List α) (l₂ : List β) :
    (l₁.zip l₂).map Prod.fst = l₁.take l₂.length := by
  induction l₁ generalizing l₂ with
  | nil => simp
  | cons a t ih =>
      cases l₂ with
      | nil => simp
      | cons b t₂ => simp [List.zip_cons_cons, ih]

theorem zip_take_of_le {α β : Type} (l₁ : List α) (l₂ : List β) (n : ℕ)
    (h : l₁.length ≤ n) : l₁.zip (l₂.take n) = l₁.zip l₂ := by
  induction l₁ generalizing l₂ n with
  | nil => simp
  | cons a t ih =>
      cases l₂ with
      | nil => simp
      | cons b t₂ =>
          cases n with
          | zero => simp at h
          | succ m =>
              simp only [List.take, List.zip_cons_cons]
              rw [ih _ _ (Nat.succ_le_succ_iff.mp h)]

/-! ## Claim theorems -/

/-- C5 (counterexample): the claim says a non-positive rate is rejected or
clamped and a negative shift rejected; in fact `ShiftedExponential.__init__`
performs no validation at all — constructing it with `rate = -1` and
`shift = -1` succeeds and stores both invalid values unchanged. -/
theorem C5_no_validation_cex :
    (ShiftedExponential.init (-1) (-1)).rate = -1 ∧
      (ShiftedExponential.init (-1) (-1)).shift = -1 ∧
      ¬ 0 < (ShiftedExponential.init (-1) (-1)).rate ∧
      ¬ 0 ≤ (ShiftedExponential.init (-1) (-1)).shift := by
  refine ⟨rfl, rfl, ?_, ?_⟩ <;> norm_num [ShiftedExponential.init]

/-- C5 (amended): constructing a `ShiftedExponential` performs no parameter
validation or clamping whatsoever: for every `rate` and `shift`, including
non-positive rates and negative shifts, the constructor succeeds and stores
the two arguments unchanged. -/
theorem C5_init_stores_unchanged (rate shift : ℚ) :
    ShiftedExponential.init rate shift = ⟨rate, shift⟩ :=
  rfl

/-- C7: `ShiftedExponential.sample` returns exactly `shift` plus the
`expovariate(rate)` draw, and since an exponential draw is non-negative the
sampled value is always at least `shift`. -/
theorem C7_sample_shift_plus_exponential (rate shift draw : ℚ) :
    ShiftedExponential.sample ⟨rate, shift⟩ draw = shift + draw ∧
      (0 ≤ draw → shift ≤ ShiftedExponential.sample ⟨rate, shift⟩ draw) := by
  refine ⟨rfl, fun h => ?_⟩
  simp only [ShiftedExponential.sample]
  linarith

/-- C7 (witness): at rate 2, shift 5 and draw 3 the sample is 5 + 3 and is
at least the shift. -/
theorem C7_sample_witness :
    ShiftedExponential.sample ⟨2, 5⟩ 3 = 5 + 3 ∧
      (5 : ℚ) ≤ ShiftedExponential.sample ⟨2, 5⟩ 3 :=
  ⟨(C7_sample_shift_plus_exponential 2 5 3).1,
    (C7_sample_shift_plus_exponential 2 5 3).2 (by norm_num)⟩

/-- C8: for a fixed seed, dataset and parameter set, the sequence of
completed-customer records of `simulate_queue` is a pure function of those
inputs: whatever the ambient state of the global random source was before
the call, `ciw.seed(seed)` overwrites it, so two invocations (here: from two
arbitrary prior global states) produce identical record sequences. -/
theorem C8_simulate_queue_deterministic (g₁ g₂ : ℕ) (data : List Rec)
    (props : List ℚ) (num_servers seed : ℕ) (max_time sigma : ℚ) :
    simulate_queue g₁ data props num_servers seed max_time sigma =
      simulate_queue g₂ data props num_servers seed max_time sigma :=
  rfl

/-- C9: `get_queue_params` has no side effect on its input: in the
state-passing rendering the dataset handed back to the caller is exactly the
input dataset (every pandas operation in the body returns a fresh object),
and the returned parameters agree with the pure function of
`(data, prop, sigma)`. -/
theorem C9_get_queue_params_pure (data : List Rec) (prop sigma : ℚ) :
    (get_queue_params_withData data prop sigma).2 = data ∧
      (get_queue_params_withData data prop sigma).1 =
        get_queue_params data prop sigma :=
  ⟨rfl, rfl⟩

theorem npMean_eq (l : List ℚ) (h : l ≠ []) :
    npMean l = .val (l.sum / l.length) := by
  simp [npMean, h]

theorem npDiv_val_ne (a b : ℚ) (hb : b ≠ 0) :
    npDiv (.val a) (.val b) = .val (a / b) := by
  simp [npDiv, hb]

/-- Synthetic run for the window-filter check: completed customers arriving
at times 10, 100, 200 and 300 (exits 20, 150, 250, 350). -/
def exampleRecords : List Record :=
  [⟨0, 10, 20, 0⟩, ⟨0, 100, 150, 0⟩, ⟨0, 200, 250, 0⟩, ⟨0, 300, 350, 0⟩]

/-- C3: `get_system_times` keeps a completed-customer record exactly when
its `arrival_date` lies strictly between `0.25 * max_time` and
`0.75 * max_time` (one output row per in-window record, none otherwise),
and each kept row reports `exit_date - arrival_date`. -/
theorem C3_system_times_window (records : List Record) (max_time : ℚ) :
    (∀ r ∈ records,
        max_time * (1/4) < r.arrival_date → r.arrival_date < max_time * (3/4) →
          r.exit_date - r.arrival_date ∈ get_system_times records max_time) ∧
      (∀ t ∈ get_system_times records max_time,
        ∃ r ∈ records,
          (max_time * (1/4) < r.arrival_date ∧
              r.arrival_date < max_time * (3/4)) ∧
            t = r.exit_date - r.arrival_date) ∧
      (get_system_times records max_time).length =
        records.countP fun r =>
          decide (max_time * (1/4) < r.arrival_date) &&
            decide (r.arrival_date < max_time * (3/4)) := by
  refine ⟨?_, ?_, ?_⟩
  · intro r hr h1 h2
    refine List.mem_map_of_mem _ (List.mem_filter.mpr ⟨hr, ?_⟩)
    simp only [Bool.and_eq_true, decide_eq_true_eq]
    exact ⟨h1, h2⟩
  · intro t ht
    obtain ⟨r, hrf, heq⟩ := List.mem_map.mp ht
    obtain ⟨hr, hcond⟩ := List.mem_filter.mp hrf
    simp only [Bool.and_eq_true, decide_eq_true_eq] at hcond
    exact ⟨r, hr, hcond, heq.symm⟩
  · simp [get_system_times, List.countP_eq_length_filter]

/-- C3 (witness): with arrivals 10, 100, 200, 300 and `max_time = 400`, only
the record arriving at 200 is kept, with system time 250 - 200. -/
theorem C3_system_times_witness :
    (250 - 200 : ℚ) ∈ get_system_times exampleRecords 400 ∧
      get_system_times exampleRecords 400 = [50] :=
  ⟨(C3_system_times_window exampleRecords 400).1 ⟨0, 200, 250, 0⟩
      (by simp [exampleRecords]) (by norm_num) (by norm_num),
    by norm_num [get_system_times, exampleRecords, List.filter_cons]⟩

/-- C6: `get_utilisations` produces exactly one row per server, each equal
to that server's `busy_time / total_time`, and whenever every server's
busy time lies between `0` and its total observed time (ciw's run-spanning
`total_time` invariant), every utilisation lies in `[0, 1]`. -/
theorem C6_utilisations (servers : List Server) :
    (get_utilisations servers).length = servers.length ∧
      (∀ s ∈ servers,
        s.busy_time / s.total_time ∈ get_utilisations servers) ∧
      (∀ u ∈ get_utilisations servers,
        ∃ s ∈ servers, u = s.busy_time / s.total_time) ∧
      ((∀ s ∈ servers, 0 ≤ s.busy_time ∧ s.busy_time ≤ s.total_time) →
        ∀ u ∈ get_utilisations servers, 0 ≤ u ∧ u ≤ 1) := by
  refine ⟨by simp [get_utilisations], ?_, ?_, ?_⟩
  · intro s hs
    exact List.mem_map_of_mem _ hs
  · intro u hu
    obtain ⟨s, hs, heq⟩ := List.mem_map.mp hu
    exact ⟨s, hs, heq.symm⟩
  · intro hinv u hu
    obtain ⟨s, hs, heq⟩ := List.mem_map.mp hu
    obtain ⟨hb, hbt⟩ := hinv s hs
    subst heq
    constructor
    · exact div_nonneg hb (hb.trans hbt)
    · by_cases ht : s.total_time = 0
      · simp [ht]
      · exact (div_le_one (lt_of_le_of_ne (hb.trans hbt) (Ne.symm ht))).mpr hbt

/-- C6 (witness): a server busy 1 out of 2 time units reports utilisation
1/2, which lies in `[0, 1]`. -/
theorem C6_utilisations_witness :
    (1 : ℚ) / 2 ∈ get_utilisations [⟨1, 2⟩] ∧
      ∀ u ∈ get_utilisations [⟨1, 2⟩], 0 ≤ u ∧ u ≤ 1 :=
  ⟨(C6_utilisations [⟨1, 2⟩]).2.1 ⟨1, 2⟩ (by simp),
    (C6_utilisations [⟨1, 2⟩]).2.2.2 (by intro s hs; simp at hs; subst hs; norm_num)⟩

/-- C10: the estimation loop of `simulate_queue` pairs cluster labels with
service scaling factors via `zip(range(n_clusters), props)`, which silently
truncates to the shorter list: the labels receiving queue parameters are
exactly `0 .. min n_clusters (len props) - 1` (no error for missing props),
and surplus `props` entries beyond `n_clusters` are ignored. -/
theorem C10_props_zip_truncation (data : List Rec) (props : List ℚ)
    (sigma : ℚ) :
    (buildAllQueueParams data props sigma).map Prod.fst =
        List.range (min (nClusters data) props.length) ∧
      (buildAllQueueParams data props sigma).length =
        min (nClusters data) props.length ∧
      buildAllQueueParams data (props.take (nClusters data)) sigma =
        buildAllQueueParams data props sigma := by
  refine ⟨?_, ?_, ?_⟩
  · have h1 : (buildAllQueueParams data props sigma).map Prod.fst =
        ((List.range (nClusters data)).zip props).map Prod.fst := by
      simp [buildAllQueueParams, List.map_map, Function.comp]
    rw [h1, zip_map_fst, List.take_range, Nat.min_comm]
  · simp [buildAllQueueParams, List.length_zip, Nat.min_comm]
  · have h2 : (List.range (nClusters data)).zip
        (props.take (nClusters data)) =
          (List.range (nClusters data)).zip props :=
      zip_take_of_le _ _ _ (by simp)
    simp only [buildAllQueueParams, h2]

/-- C4: `get_queue_params` returns `minimum_shift = max(0, min sojourn)` and
`service_rate = 1 / (mean(sojourn - minimum_shift) * prop)` (the mean taken
over all records); instantiated by the witness at sojourns `[1, 3, 5]`,
`prop = 1`, giving shift 1 and rate 1/2. -/
theorem C4_service_params (data : List Rec) (prop sigma : ℚ)
    (hne : data ≠ [])
    (hdenom : ((data.map Rec.true_los).map
        (fun x => x - max 0 (listMin (data.map Rec.true_los)))).sum /
          (data.length : ℚ) * prop ≠ 0) :
    (get_queue_params data prop sigma).minimumShift =
        max 0 (listMin (data.map Rec.true_los)) ∧
      (get_queue_params data prop sigma).serviceRate =
        .val (1 / (((data.map Rec.true_los).map
          (fun x => x - max 0 (listMin (data.map Rec.true_los)))).sum /
            (data.length : ℚ) * prop)) := by
  constructor
  · rfl
  · have hlne : (data.map Rec.true_los).map
        (fun x => x - max 0 (listMin (data.map Rec.true_los))) ≠ [] := by
      simpa using hne
    show npDiv (.val 1) (npMul (npMean _) (.val prop)) = _
    rw [npMean_eq _ hlne]
    show npDiv (.val 1) (.val (_ * prop)) = _
    rw [npDiv_val_ne]
    · simp
    · simpa using hdenom

/-- C4 (witness): for the spec's worked example (sojourns `[1, 3, 5]`,
`prop = 1`) the returned minimum shift is 1 and the service rate 1/2. -/
theorem C4_service_params_witness :
    (get_queue_params exampleData 1 1).minimumShift = 1 ∧
      (get_queue_params exampleData 1 1).serviceRate = .val (1 / 2) := by
  have hmin : max 0 (listMin (exampleData.map Rec.true_los)) = 1 := by
    norm_num [exampleData, listMin]
  have h := C4_service_params exampleData 1 1 (by simp [exampleData])
    (by rw [show ((exampleData.map Rec.true_los).map
          (fun x => x - max 0 (listMin (exampleData.map Rec.true_los)))) =
        [0, 2, 4] by rw [hmin]; norm_num [exampleData]]
        norm_num [exampleData])
  refine ⟨h.1.trans hmin, h.2.trans ?_⟩
  rw [show ((exampleData.map Rec.true_los).map
        (fun x => x - max 0 (listMin (exampleData.map Rec.true_los)))) =
      [0, 2, 4] by rw [hmin]; norm_num [exampleData]]
  norm_num [exampleData]

/-- C1 (counterexample): the claim says the mean is taken over the `n - 1`
gaps between consecutive admissions, giving arrival rate `1/2` for
admissions at days 0, 2, 4 with `sigma = 1`; the code's `fill_value=0`
zero-fills the leading `NaT` difference, so the mean is over `n` values and
the returned rate is `3/4`, not `1/2`. -/
theorem C1_arrival_rate_cex :
    (get_queue_params exampleData 1 1).arrival = .val (3 / 4) ∧
      (get_queue_params exampleData 1 1).arrival ≠ .val (1 / 2) := by
  have h : (get_queue_params exampleData 1 1).arrival = .val (3 / 4) := by
    norm_num [get_queue_params, npMean, npDiv, npMul, gapsDays, pairGaps,
      sortedAdmissions, listMin, exampleData]
  refine ⟨h, ?_⟩
  rw [h]
  simp only [ne_eq, NpFloat.val.injEq]
  norm_num

/-- C1 (amended): for a nonempty class dataset, `arrival_rate` is `sigma`
divided by the mean of `n` gap values — a zero for the first (chronologically
sorted) admission plus the `n - 1` consecutive gaps — which telescopes to
`sigma * n / (latest admission - earliest admission)` whenever that span is
nonzero.  (For days 0, 2, 4 with `sigma = 1` this gives `3/4`.) -/
theorem C1_arrival_rate_amended (data : List Rec) (prop sigma : ℚ)
    (hne : data ≠ [])
    (hspan : (sortedAdmissions data).getLastD 0 -
        (sortedAdmissions data).headD 0 ≠ 0) :
    (get_queue_params data prop sigma).arrival =
      .val (sigma * (data.length : ℚ) /
        ((sortedAdmissions data).getLastD 0 -
          (sortedAdmissions data).headD 0)) := by
  have hslen : (sortedAdmissions data).length = data.length := by
    simp [sortedAdmissions, List.length_insertionSort]
  have hnlen : (data.length : ℚ) ≠ 0 :=
    Nat.cast_ne_zero.mpr fun h0 => hne (List.length_eq_zero.mp h0)
  cases hs : sortedAdmissions data with
  | nil =>
      rw [hs] at hslen
      exact absurd (List.length_eq_zero.mp hslen.symm) hne
  | cons a t =>
      rw [hs] at hslen hspan
      simp only [List.getLastD_cons, List.headD_cons] at hspan ⊢
      have hglen : ((gapsDays (a :: t)).length : ℚ) = (data.length : ℚ) := by
        rw [show (gapsDays (a :: t)).length = (a :: t).length by
          simp [gapsDays, pairGaps_length]]
        exact_mod_cast hslen
      have hsum : (gapsDays (a :: t)).sum = t.getLastD a - a := by
        simp [gapsDays, pairGaps_sum]
      have hmean : npMean (gapsDays (a :: t)) =
          .val ((t.getLastD a - a) / (data.length : ℚ)) := by
        rw [npMean_eq _ (by simp [gapsDays]), hsum, hglen]
      show npDiv (.val sigma) (npMean (gapsDays (sortedAdmissions data))) = _
      rw [hs, hmean, npDiv_val_ne _ _ (div_ne_zero hspan hnlen)]
      rw [div_div_eq_mul_div]

/-- C1 (witness): the amended formula applied to admissions at days 0, 2, 4
with `sigma = 1` yields arrival rate `1 * 3 / (4 - 0) = 3/4`. -/
theorem C1_arrival_rate_witness :
    (get_queue_params exampleData 1 1).arrival = .val (0.75) := by
  have hs : sortedAdmissions exampleData = [0, 2, 4] := rfl
  have h := C1_arrival_rate_amended exampleData 1 1
    (by simp [exampleData]) (by rw [hs]; norm_num [List.getLastD])
  rw [h, hs]
  norm_num [List.getLastD, exampleData]

/-- C2 (counterexample): the claim says a class with at most one record
makes the estimator fail with an `InsufficientDataError` rather than return
infinities; in fact no such error exists — on the single-record dataset
`[(day 0, los 5)]` the zero-filled mean gap and the mean shifted length are
both `0`, and both divisions silently return `inf`. -/
theorem C2_insufficient_data_cex :
    (get_queue_params [⟨0, 5, 0⟩] 1 1).arrival = .inf ∧
      (get_queue_params [⟨0, 5, 0⟩] 1 1).serviceRate = .inf := by
  constructor <;>
    norm_num [get_queue_params, npMean, npDiv, npMul, gapsDays, pairGaps,
      sortedAdmissions, listMin]

/-- C2 (amended): on a class dataset with at most one record and positive
`sigma`, `get_queue_params` does not fail: it silently returns an
`arrival_rate` of `inf` (one record: division of `sigma` by a zero mean) or
`nan` (no records: mean of an empty series). -/
theorem C2_insufficient_data_amended (data : List Rec) (prop sigma : ℚ)
    (hlen : data.length ≤ 1) (hsigma : 0 < sigma) :
    (get_queue_params data prop sigma).arrival = .inf ∨
      (get_queue_params data prop sigma).arrival = .nan := by
  cases data with
  | nil =>
      right
      show npDiv (.val sigma) (npMean (gapsDays (sortedAdmissions []))) = _
      simp [sortedAdmissions, gapsDays, npMean, npDiv]
  | cons r t =>
      cases t with
      | nil =>
          left
          show npDiv (.val sigma) (npMean (gapsDays (sortedAdmissions [r]))) = _
          have hs : sortedAdmissions [r] = [r.admission_date] := rfl
          rw [hs]
          simp [gapsDays, pairGaps, npMean, npDiv, hsigma, hsigma.ne']
      | cons r₂ t₂ => simp at hlen

/-- C2 (witness): the amended statement at the single-record dataset
`[(day 0, los 5)]` with `sigma = 1`. -/
theorem C2_insufficient_data_witness :
    (get_queue_params [⟨0, 5, 0⟩] 1 1).arrival = .inf ∨
      (get_queue_params [⟨0, 5, 0⟩] 1 1).arrival = .nan :=
  C2_insufficient_data_amended [⟨0, 5, 0⟩] 1 1 (by simp) (by norm_num)
